import Mathlib

/-!
Verification of the TaskMaster task-management application.

This file gives a shallow embedding, in Lean, of the parts of the
repository that the specification's claims are about:

* the query-string array-parameter helpers `parseQueryParamArray` /
  `serializeQueryParamArray` of the main task-list view;
* the client notification store actions of `vitereact/src/store/main.tsx`
  (`set_notifications`, `add_notification`, `mark_as_read`,
  `mark_all_as_read`);
* the relational schema of `backend/db.sql` (cascade behaviour of
  task deletion and comment deletion, uniqueness of assignment rows);
* the registration handler and the realtime connection registry
  (`userSocketsMap`) of `backend/server.js`;
* the Task Mutation Engine operations and the Query/Filter Engine
  pagination, which have no implementation under the repository's
  sources and are therefore modelled from the specification text.

JavaScript strings that we must compute with (split / trim / lower-case)
are embedded as `List Char`; strings that are only carried along are
embedded as `String`.  Machine integers do not occur: all ids and counts
are JavaScript numbers used as small naturals.

The file is organised as definitions first, theorems second.
-/

namespace TaskMaster

/-! ## JavaScript string primitives -/

/-- Character strings as lists of characters (a JS string value). -/
abbrev Str := List Char

/-- The set of characters removed by JavaScript `String.prototype.trim`:
TAB, LF, VT, FF, CR, SP, NBSP, and the Unicode space separators,
line/paragraph separators, narrow NBSP, medium mathematical space,
ideographic space and BOM. -/
def jsWhitespace (c : Char) : Bool :=
  (9 ≤ c.toNat && c.toNat ≤ 13) || c.toNat == 32 || c.toNat == 160 ||
  c.toNat == 0x1680 || (0x2000 ≤ c.toNat && c.toNat ≤ 0x200A) ||
  c.toNat == 0x2028 || c.toNat == 0x2029 || c.toNat == 0x202F ||
  c.toNat == 0x205F || c.toNat == 0x3000 || c.toNat == 0xFEFF

/-- JavaScript `s.trim()`: drop whitespace from both ends. -/
def jsTrim (s : Str) : Str :=
  ((s.dropWhile jsWhitespace).reverse.dropWhile jsWhitespace).reverse

/-- JavaScript `s.toLowerCase()` restricted to the per-character mapping
(the strings this code lower-cases are e-mail addresses). -/
def jsToLower (s : Str) : Str := s.map Char.toLower

/-! ## Query-string array parameters (UV_MainTaskList)

Source (frontend task-list view):
```
const parseQueryParamArray = (param: string | null): string[] => {
  if (!param) return [];
  return param.split(',').map((s) => s.trim()).filter(Boolean);
};
const serializeQueryParamArray = (arr: string[]) => arr.join(',');
```
`null` and the empty string are both falsy, so the embedding takes the
empty list for the falsy case. -/

/-- Parse a comma-separated query-string parameter into a string array:
falsy input gives `[]`; otherwise split on `,`, trim each piece and drop
the pieces that trim to the empty (falsy) string. -/
def parseQueryParamArray (param : Str) : List Str :=
  if param = [] then []
  else ((param.splitOn ',').map jsTrim).filter (fun s => s ≠ [])

/-- Serialize a string array as the comma-separated join of its elements. -/
def serializeQueryParamArray (arr : List Str) : Str :=
  [','].intercalate arr

/-! ## Client notification store (vitereact/src/store/main.tsx)

The `NotificationsState` slice of the Zustand store and its four actions.
-/

/-- The client-side notification type union
(`'assignment' | 'comment' | 'status_update' | 'reminder'`). -/
inductive NotificationType
  | assignment
  | comment
  | status_update
  | reminder
deriving DecidableEq, Repr

/-- A client-side notification object (store interface `Notification`). -/
structure Notification where
  notification_id : Nat
  type : NotificationType
  message : String
  reference_id : Nat
  created_at : String
  is_read : Bool
deriving DecidableEq, Repr

/-- The `NotificationsState` slice of the store: the notification list and
the derived unread counter. -/
structure NotificationsState where
  notifications : List Notification
  unread_count : Nat
deriving DecidableEq, Repr

/-- Store action `set_notifications`: replace the list and recompute
`unread_count` as the number of unread entries. -/
def set_notifications (s : NotificationsState) (ns : List Notification) :
    NotificationsState :=
  { s with notifications := ns,
           unread_count := (ns.filter (fun n => !n.is_read)).length }

/-- Store action `add_notification`: if a notification with the same
`notification_id` already exists the state is returned unchanged;
otherwise the notification is prepended and `unread_count` is bumped when
it is unread. -/
def add_notification (s : NotificationsState) (n : Notification) :
    NotificationsState :=
  match s.notifications.find?
      (fun m => m.notification_id == n.notification_id) with
  | some _ => s
  | none =>
      { s with notifications := n :: s.notifications,
               unread_count :=
                 if n.is_read then s.unread_count else s.unread_count + 1 }

/-- Store action `mark_as_read`: set `is_read` on the matching
notification and recompute `unread_count` from the new list. -/
def mark_as_read (s : NotificationsState) (id : Nat) : NotificationsState :=
  let newNotifications := s.notifications.map
    (fun n => if n.notification_id = id then { n with is_read := true } else n)
  { s with notifications := newNotifications,
           unread_count :=
             (newNotifications.filter (fun n => !n.is_read)).length }

/-- Store action `mark_all_as_read`: set `is_read` everywhere and zero the
counter. -/
def mark_all_as_read (s : NotificationsState) : NotificationsState :=
  { s with notifications := s.notifications.map (fun n => { n with is_read := true }),
           unread_count := 0 }

/-- The store's counter invariant: `unread_count` equals the number of
notifications whose `is_read` flag is false. -/
def unreadInv (s : NotificationsState) : Prop :=
  s.unread_count = (s.notifications.filter (fun n => !n.is_read)).length

/-- A concrete already-read notification, used to witness the
`mark_as_read` theorems on an explicit state. -/
def readNotification : Notification :=
  { notification_id := 1, type := .assignment, message := "m",
    reference_id := 101, created_at := "2024-06-05T09:01:00Z",
    is_read := true }

/-- A concrete unread notification, used to witness the store-invariant
theorems on an explicit state. -/
def unreadNotification : Notification :=
  { notification_id := 2, type := .comment, message := "c",
    reference_id := 204, created_at := "2024-06-09T13:05:00Z",
    is_read := false }

/-! ## Relational store (backend/db.sql)

Row types for the tables the claims are about, and the semantics of the
two deletions whose behaviour the schema's referential actions fix.
-/

/-- The task priority domain (`'Low'|'Medium'|'High'`). -/
inductive TaskPriority
  | low
  | medium
  | high
deriving DecidableEq, Repr

/-- The task status domain (`'To Do'|'In Progress'|'Done'`). -/
inductive TaskStatus
  | toDo
  | inProgress
  | done
deriving DecidableEq, Repr

/-- A row of the `tasks` table. -/
structure TaskRow where
  task_id : Nat
  creator_user_id : Nat
  title : Str
  description : Option String
  due_date : Option String
  priority : TaskPriority
  status : TaskStatus
  created_at : String
  updated_at : String
  tags : List String
deriving DecidableEq, Repr

/-- A row of the `task_assignees` table (composite primary key
`(task_id, user_id)`). -/
structure AssignmentRow where
  task_id : Nat
  user_id : Nat
  assigned_at : String
deriving DecidableEq, Repr

/-- A row of the `task_comments` table (`parent_comment_id` references
`task_comments(comment_id) ON DELETE SET NULL`). -/
structure CommentRow where
  comment_id : Nat
  task_id : Nat
  author_user_id : Nat
  body : String
  created_at : String
  updated_at : Option String
  parent_comment_id : Option Nat
deriving DecidableEq, Repr

/-- A row of the `notifications` table; `reference_id` is a polymorphic
reference with no foreign-key constraint. -/
structure NotificationRow where
  notification_id : Nat
  user_id : Nat
  type : String
  reference_id : Option Nat
  message : String
  is_read : Bool
  created_at : String
deriving DecidableEq, Repr

/-- A row of the `task_reminders` table. -/
structure ReminderRow where
  reminder_id : Nat
  task_id : Nat
  remind_at : String
  preset : String
  created_at : String
deriving DecidableEq, Repr

/-- The relational store restricted to the tables the claims mention. -/
structure DBState where
  tasks : List TaskRow
  task_assignees : List AssignmentRow
  task_comments : List CommentRow
  notifications : List NotificationRow
  task_reminders : List ReminderRow
deriving DecidableEq, Repr

/-- The `ON DELETE SET NULL` action of `parent_comment_id`: a comment
whose parent is among the deleted comments gets a null parent
reference. -/
def nullifyParent (deleted : List CommentRow) (c : CommentRow) : CommentRow :=
  match c.parent_comment_id with
  | some p =>
      if deleted.any (fun d => d.comment_id == p) then
        { c with parent_comment_id := none }
      else c
  | none => c

/-- SQL `DELETE FROM tasks WHERE task_id = id` under the schema's
referential actions: rows of `task_assignees`, `task_comments` and
`task_reminders` belonging to the task are cascade-deleted
(`ON DELETE CASCADE`); surviving comments that referenced a
cascade-deleted comment get a null parent (`ON DELETE SET NULL`);
`notifications.reference_id` has no foreign key, so that table is
untouched. -/
def deleteTask (db : DBState) (id : Nat) : DBState :=
  let deletedComments := db.task_comments.filter (fun c => c.task_id == id)
  { db with
    tasks := db.tasks.filter (fun t => t.task_id != id),
    task_assignees := db.task_assignees.filter (fun a => a.task_id != id),
    task_comments :=
      (db.task_comments.filter (fun c => c.task_id != id)).map
        (nullifyParent deletedComments),
    task_reminders := db.task_reminders.filter (fun r => r.task_id != id) }

/-- SQL `DELETE FROM task_comments WHERE comment_id = cid` under the
schema's `parent_comment_id ... ON DELETE SET NULL` action: the row is
removed and every remaining comment that referenced it gets a null
parent reference. -/
def deleteComment (comments : List CommentRow) (cid : Nat) : List CommentRow :=
  (comments.filter (fun c => c.comment_id != cid)).map
    (fun c =>
      if c.parent_comment_id == some cid then
        { c with parent_comment_id := none }
      else c)

/-- A parent comment on task 101, used by the concrete witnesses. -/
def comment201 : CommentRow :=
  { comment_id := 201, task_id := 101, author_user_id := 2, body := "b1",
    created_at := "t1", updated_at := none, parent_comment_id := none }

/-- A reply to `comment201`, used by the concrete witnesses. -/
def comment202 : CommentRow :=
  { comment_id := 202, task_id := 101, author_user_id := 3, body := "b2",
    created_at := "t2", updated_at := none, parent_comment_id := some 201 }

/-- A comment on a different task, used by the concrete witnesses. -/
def comment203 : CommentRow :=
  { comment_id := 203, task_id := 102, author_user_id := 2, body := "b3",
    created_at := "t3", updated_at := none, parent_comment_id := none }

/-- A notification whose `reference_id` points at task 101, used by the
concrete witnesses. -/
def notification301 : NotificationRow :=
  { notification_id := 301, user_id := 2, type := "task_assignment",
    reference_id := some 101, message := "m", is_read := false,
    created_at := "t" }

/-- A small store holding task 101 with an assignment, two comments, a
notification referencing it and a reminder, used by the concrete
witnesses. -/
def sampleDB : DBState :=
  { tasks := [{ task_id := 101, creator_user_id := 1, title := ['t'],
                description := none, due_date := none,
                priority := .high, status := .toDo,
                created_at := "c", updated_at := "u", tags := [] }],
    task_assignees := [{ task_id := 101, user_id := 2, assigned_at := "a" }],
    task_comments := [comment201, comment202, comment203],
    notifications := [notification301],
    task_reminders := [{ reminder_id := 401, task_id := 101,
                         remind_at := "r", preset := "1_hour_before",
                         created_at := "t" }] }

/-! ## Registration handler (backend/server.js, POST /api/auth/register) -/

/-- A row of the `users` table. -/
structure UserRow where
  user_id : Nat
  email : Str
  password_hash : Str
  name : String
  role : String
  created_at : String
  updated_at : String
  notification_settings : String
deriving DecidableEq, Repr

/-- An HTTP response as observed at the boundary: status code and the
optional `error` field of the JSON body. -/
structure HttpOutcome where
  status : Nat
  error : Option String
deriving DecidableEq, Repr

/-- The `POST /api/auth/register` handler acting on the users table:
missing email/password/name (JS falsiness) gives 400; an existing row
whose e-mail equals the lower-cased requested e-mail gives
400 `Email already registered` with no insert; otherwise one row is
inserted (fresh id, bcrypt-hashed password, role `regular`, both
timestamps `now`) and the handler answers 200.  The bcrypt hash and the
id/timestamp generators are passed in as parameters. -/
def register (hash : Str → Str) (freshId : Nat) (now : String)
    (users : List UserRow) (email password : Str) (name : String) :
    HttpOutcome × List UserRow :=
  if email = [] ∨ password = [] ∨ name = "" then
    ({ status := 400, error := some "email, password and name are required" },
     users)
  else if users.any (fun u => u.email == jsToLower email) then
    ({ status := 400, error := some "Email already registered" }, users)
  else
    ({ status := 200, error := none },
     users ++ [{ user_id := freshId, email := jsToLower email,
                 password_hash := hash password, name := name,
                 role := "regular", created_at := now, updated_at := now,
                 notification_settings :=
                   "\x7b\"in_app\": true, \"email\": false\x7d" }])

/-- A concrete registered user, used by the registration witness. -/
def aliceRow : UserRow :=
  { user_id := 1, email := ['a', '@', 'x'], password_hash := ['h'],
    name := "Alice", role := "manager", created_at := "c", updated_at := "u",
    notification_settings := "s" }

/-! ## Realtime connection registry (backend/server.js, userSocketsMap)

`userSocketsMap` is a JS `Map` from user id to the `Set` of that user's
connected socket ids.  A `Map` keyed by numbers preserves insertion order
and holds each key once; a `Set` holds its elements in insertion order
without duplicates.  Both are embedded as lists.
-/

/-- The connection registry: user id to that user's socket ids. -/
abbrev Registry := List (Nat × List Nat)

/-- JS `Map.get`: the value stored under the key, if any (a `Map` holds
each key at most once). -/
def mapGet : Registry → Nat → Option (List Nat)
  | [], _ => none
  | p :: rest, u => if p.1 = u then some p.2 else mapGet rest u

/-- JS `Map.set`: overwrite the entry holding the key, or append a new
entry at the end (`Map` preserves insertion order). -/
def mapSet : Registry → Nat → List Nat → Registry
  | [], u, v => [(u, v)]
  | p :: rest, u, v =>
      if p.1 = u then (u, v) :: rest else p :: mapSet rest u v

/-- JS `Map.delete`: remove the entry holding the key, if any. -/
def mapDelete : Registry → Nat → Registry
  | [], _ => []
  | p :: rest, u => if p.1 = u then rest else p :: mapDelete rest u

/-- JS `Set.add`: append the element when absent. -/
def setAdd (s : List Nat) (x : Nat) : List Nat :=
  if x ∈ s then s else s ++ [x]

/-- JS `Set.delete`: remove the element. -/
def setDelete (s : List Nat) (x : Nat) : List Nat :=
  s.filter (fun y => y != x)

/-- The `io.on('connection')` handler's registry update:
`userSockets = map.get(id) || new Set(); userSockets.add(socket.id);
map.set(id, userSockets)`. -/
def onConnect (m : Registry) (u s : Nat) : Registry :=
  mapSet m u (setAdd ((mapGet m u).getD []) s)

/-- The socket `disconnect` handler's registry update: when the user has
an entry, delete the socket from it; drop the entry when the set becomes
empty, otherwise store the shrunken set back. -/
def onDisconnect (m : Registry) (u s : Nat) : Registry :=
  match mapGet m u with
  | none => m
  | some sockets =>
      let sockets' := setDelete sockets s
      if sockets' = [] then mapDelete m u else mapSet m u sockets'

/-- A socket lifecycle event as seen by the two handlers. -/
inductive SockEvent
  | connect (user : Nat) (sock : Nat)
  | disconnect (user : Nat) (sock : Nat)
deriving DecidableEq, Repr

/-- One registry transition. -/
def registryStep (m : Registry) : SockEvent → Registry
  | .connect u s => onConnect m u s
  | .disconnect u s => onDisconnect m u s

/-- The registry after a sequence of connect/disconnect events. -/
def runRegistry (m : Registry) (evs : List SockEvent) : Registry :=
  evs.foldl registryStep m

/-- Reference model: the log of currently connected (user, socket) pairs,
in connection order. -/
def refStep (c : List (Nat × Nat)) : SockEvent → List (Nat × Nat)
  | .connect u s => c ++ [(u, s)]
  | .disconnect u s => c.filter (fun p => p != (u, s))

/-- The reference connection log after a sequence of events. -/
def refRun (c : List (Nat × Nat)) (evs : List SockEvent) : List (Nat × Nat) :=
  evs.foldl refStep c

/-- Admissibility of one event against the connection log: socket ids of
new connections are globally fresh (socket.io never reuses a live id),
and a disconnect concerns a currently connected socket of that user. -/
def okEvent (c : List (Nat × Nat)) : SockEvent → Bool
  | .connect _ s => c.all (fun p => p.2 != s)
  | .disconnect u s => c.contains (u, s)

/-- Admissibility of a whole event sequence from a given log. -/
def wfEvents : List (Nat × Nat) → List SockEvent → Bool
  | _, [] => true
  | c, e :: rest => okEvent c e && wfEvents (refStep c e) rest

/-- The sockets of one user currently connected according to the log. -/
def connectedSockets (c : List (Nat × Nat)) (u : Nat) : List Nat :=
  (c.filter (fun p => p.1 == u)).map Prod.snd

/-- Registry correctness: every user id is mapped to exactly their
currently connected sockets, with an entry present iff that set is
non-empty. -/
def RegistryMatches (m : Registry) (c : List (Nat × Nat)) : Prop :=
  ∀ u, mapGet m u =
    if connectedSockets c u = [] then none else some (connectedSockets c u)

/-- A concrete admissible event sequence: user 1 opens two connections,
user 2 opens one, then user 1 closes its first connection. -/
def sampleEvents : List SockEvent :=
  [.connect 1 10, .connect 1 11, .connect 2 20, .disconnect 1 10]

/-! ## Task Mutation Engine and Query/Filter Engine (spec-modelled)

The REST handlers for task creation, task update and task listing are
not among the repository's sources (only `db.sql` and their frontend
callers are), so the operations below are modelled from the
specification text (§4.1, §4.5).
-/

/-- The raw fields of a task-creation request, including a `status`
field a client might try to supply. -/
structure CreateTaskInput where
  title : Str
  description : Option String
  due_date : Option String
  priority : Option String
  status : Option String
  tags : List String
  assignees : List Nat
deriving DecidableEq, Repr

/-- Modelled from the spec: priority defaults to `Medium` when omitted or
invalid. -/
def parsePriorityInput : Option String → TaskPriority
  | some "Low" => .low
  | some "Medium" => .medium
  | some "High" => .high
  | _ => .medium

/-- Modelled from the spec: the Task Mutation Engine `Create` operation
(the `POST /api/tasks` handler) is missing from the sources; modelled
from §4.1 — `title` is required non-empty after trim; `priority`
defaults to `Medium` when omitted or invalid; `status` always
initializes to `To Do` regardless of any status value supplied in the
request (the `tasks` table of db.sql likewise defaults `status` to
`'To Do'`); `tags` is deduplicated; assignee ids must reference existing
users and produce assignment rows with `assigned_at = now`. -/
def createTask (existingUsers : List Nat) (freshId : Nat) (now : String)
    (creatorId : Nat) (inp : CreateTaskInput) :
    Except String (TaskRow × List AssignmentRow) :=
  if jsTrim inp.title = [] then .error "title is required"
  else if inp.assignees.all (fun a => existingUsers.contains a) then
    .ok ({ task_id := freshId, creator_user_id := creatorId,
           title := inp.title, description := inp.description,
           due_date := inp.due_date,
           priority := parsePriorityInput inp.priority,
           status := .toDo,
           created_at := now, updated_at := now,
           tags := inp.tags.dedup },
         inp.assignees.map (fun a =>
           { task_id := freshId, user_id := a, assigned_at := now }))
  else .error "unknown assignee"

/-- A creation request that tries to smuggle in `status := "Done"` and an
invalid priority, used by the concrete witnesses. -/
def sampleCreateInput : CreateTaskInput :=
  { title := ['S', 'h', 'i', 'p'], description := none, due_date := none,
    priority := some "bogus", status := some "Done", tags := ["a", "a"],
    assignees := [2] }

/-- The task produced by `createTask` on `sampleCreateInput`. -/
def sampleCreatedTask : TaskRow :=
  { task_id := 106, creator_user_id := 1, title := ['S', 'h', 'i', 'p'],
    description := none, due_date := none, priority := .medium,
    status := .toDo, created_at := "t", updated_at := "t", tags := ["a"] }

/-- The assignment rows produced by `createTask` on
`sampleCreateInput`. -/
def sampleCreatedAssignments : List AssignmentRow :=
  [{ task_id := 106, user_id := 2, assigned_at := "t" }]

/-- Modelled from the spec: the assignee handling of the Task Mutation
Engine `Update` operation (the `PATCH /api/tasks/:id` handler) is
missing from the sources; modelled from §4.1 — changing `assignees`
replaces the full assignee set: new members get fresh Assignment rows
with `assigned_at = now`, removed members' rows are deleted, and
unchanged members keep their existing rows (`assigned_at` preserved).
The `task_assignees` table of db.sql keys rows by `(task_id, user_id)`,
so the requested list is treated as a set. -/
def updateAssignees (rows : List AssignmentRow) (taskId : Nat)
    (requested : List Nat) (now : String) : List AssignmentRow :=
  let newSet := requested.dedup
  let kept := rows.filter (fun r =>
    !(r.task_id == taskId && !(newSet.contains r.user_id)))
  let added := (newSet.filter (fun u =>
      !(rows.any (fun r => r.task_id == taskId && r.user_id == u)))).map
    (fun u => { task_id := taskId, user_id := u, assigned_at := now })
  kept ++ added

/-- The primary key of an assignment row. -/
def assignmentKey (r : AssignmentRow) : Nat × Nat := (r.task_id, r.user_id)

/-- The number of assignment rows stored for one (task, user) pair. -/
def assignmentCount (rows : List AssignmentRow) (t u : Nat) : Nat :=
  (rows.filter (fun r => r.task_id == t && r.user_id == u)).length

/-- The pagination block returned alongside a task-list page. -/
structure PageInfo where
  current_page : Nat
  total_pages : Nat
  page_size : Nat
  total_items : Nat
deriving DecidableEq, Repr

/-- Modelled from the spec: the Query/Filter Engine `List` operation
(the `GET /api/tasks` handler) is missing from the sources; modelled
from §4.5 — pagination is 1-indexed with a configurable page size,
slices the filtered result set, and reports the total item count and
the total page count (the ceiling of `total_items / page_size`)
computed from the filtered set size. -/
def paginate (filtered : List TaskRow) (page page_size : Nat) :
    List TaskRow × PageInfo :=
  let total_items := filtered.length
  let total_pages := (total_items + page_size - 1) / page_size
  let items := (filtered.drop ((page - 1) * page_size)).take page_size
  (items, { current_page := page, total_pages := total_pages,
            page_size := page_size, total_items := total_items })

/-- A list of 25 pairwise distinct task rows, used by the pagination
witness. -/
def twentyFiveTasks : List TaskRow :=
  (List.range 25).map (fun i =>
    { task_id := i, creator_user_id := 1, title := ['t'],
      description := none, due_date := none, priority := .medium,
      status := .toDo, created_at := "c", updated_at := "u", tags := [] })

/-! # Theorems -/

/-! ## C6 — pagination arithmetic -/

/-- C6: list pagination is 1-indexed (page `p` holds the slice starting
at `(p-1)·page_size`), `total_items` is the filtered set's size, and
`total_pages` is the ceiling of `total_items / page_size` — characterized
by `total_items ≤ total_pages·page_size < total_items + page_size`; in
particular with 25 tasks and page size 10, page 3 returns exactly 5 items
and `total_pages = 3`. -/
theorem paginate_spec (filtered : List TaskRow) (page ps : Nat)
    (hps : 0 < ps) :
    (paginate filtered page ps).1 =
      (filtered.drop ((page - 1) * ps)).take ps ∧
    (paginate filtered page ps).2.current_page = page ∧
    (paginate filtered page ps).2.total_items = filtered.length ∧
    filtered.length ≤ (paginate filtered page ps).2.total_pages * ps ∧
    (paginate filtered page ps).2.total_pages * ps < filtered.length + ps ∧
    (filtered.length = 25 → ps = 10 → page = 3 →
      (paginate filtered page ps).1.length = 5 ∧
      (paginate filtered page ps).2.total_pages = 3) := by
  refine ⟨rfl, rfl, rfl, ?_, ?_, ?_⟩
  · simp only [paginate]
    have h1 := Nat.div_add_mod' (filtered.length + ps - 1) ps
    have h2 := Nat.mod_lt (filtered.length + ps - 1) hps
    omega
  · simp only [paginate]
    have h1 := Nat.div_add_mod' (filtered.length + ps - 1) ps
    have h2 := Nat.mod_lt (filtered.length + ps - 1) hps
    omega
  · intro hlen hps10 hpage
    subst hps10
    subst hpage
    constructor
    · simp [paginate, List.length_take, List.length_drop, hlen]
    · simp [paginate, hlen]

/-- C6 (witness): on a concrete list of 25 tasks with page size 10,
page 3 holds 5 items, `total_pages = 3` and `total_items = 25`. -/
theorem paginate_spec_witness :
    (paginate twentyFiveTasks 3 10).1.length = 5 ∧
    (paginate twentyFiveTasks 3 10).2.total_pages = 3 ∧
    (paginate twentyFiveTasks 3 10).2.total_items = 25 := by
  have h := paginate_spec twentyFiveTasks 3 10 (by decide)
  have hl : twentyFiveTasks.length = 25 := by decide
  obtain ⟨hc, hto⟩ := h.2.2.2.2.2 hl rfl rfl
  exact ⟨hc, hto, by rw [h.2.2.1, hl]⟩

/-! ## C7 — duplicate-e-mail registration conflict -/

/-- C7: registering with an e-mail that (after lower-casing) already
belongs to an existing user answers a 4xx status — concretely 400 — and
leaves the users table completely unchanged: no row is inserted. -/
theorem register_duplicate_email_conflict (hash : Str → Str) (freshId : Nat)
    (now : String) (users : List UserRow) (email password : Str) (name : String)
    (h : ∃ u ∈ users, u.email = jsToLower email) :
    (register hash freshId now users email password name).1.status = 400 ∧
    (register hash freshId now users email password name).2 = users := by
  unfold register
  by_cases h0 : email = [] ∨ password = [] ∨ name = ""
  · rw [if_pos h0]
    exact ⟨rfl, rfl⟩
  · rw [if_neg h0]
    obtain ⟨u, hu, he⟩ := h
    have hany : users.any (fun u => u.email == jsToLower email) := by
      exact List.any_eq_true.mpr ⟨u, hu, by simp [he]⟩
    rw [if_pos hany]
    exact ⟨rfl, rfl⟩

/-- C7 (witness): registering `A@X` when `a@x` is already registered
(case-insensitive duplicate) answers 400 and leaves the single-row users
table as it was. -/
theorem register_duplicate_email_conflict_witness :
    (register id 2 "t" [aliceRow] ['A', '@', 'X'] ['p'] "Anna").1.status = 400 ∧
    (register id 2 "t" [aliceRow] ['A', '@', 'X'] ['p'] "Anna").2 = [aliceRow] :=
  register_duplicate_email_conflict id 2 "t" [aliceRow] ['A', '@', 'X'] ['p'] "Anna"
    ⟨aliceRow, by decide, by decide⟩

/-! ## C8 — realtime connection registry -/

/-- A key absent from a registry's key list has no stored value. -/
lemma mapGet_eq_none_of_key_absent (m : Registry) (u : Nat)
    (h : u ∉ m.map Prod.fst) : mapGet m u = none := by
  induction m with
  | nil => rfl
  | cons a t ih =>
    simp only [List.map_cons, List.mem_cons] at h
    push_neg at h
    simp only [mapGet]
    rw [if_neg (fun hc => h.1 hc.symm)]
    exact ih h.2

/-- `Map.get` after `Map.set`. -/
lemma mapGet_mapSet (m : Registry) (u w : Nat) (v : List Nat) :
    mapGet (mapSet m u v) w = if w = u then some v else mapGet m w := by
  induction m with
  | nil =>
    simp only [mapSet, mapGet]
    by_cases hw : w = u
    · subst hw; simp
    · have h1 : ¬u = w := fun hc => hw hc.symm
      simp [hw, h1]
  | cons a t ih =>
    simp only [mapSet]
    by_cases hau : a.1 = u
    · rw [if_pos hau]
      simp only [mapGet]
      by_cases hw : w = u
      · subst hw; simp
      · have h1 : ¬u = w := fun hc => hw hc.symm
        have h2 : ¬a.1 = w := by rw [hau]; exact h1
        simp [hw, h1, h2]
    · rw [if_neg hau]
      simp only [mapGet]
      by_cases haw : a.1 = w
      · have hw : ¬w = u := by rw [← haw]; exact hau
        simp [haw, hw]
      · simp [haw, ih]

/-- Membership in the key list after `Map.set`. -/
lemma mem_keys_mapSet (m : Registry) (u w : Nat) (v : List Nat)
    (h : w ∈ (mapSet m u v).map Prod.fst) : w = u ∨ w ∈ m.map Prod.fst := by
  induction m with
  | nil =>
    simp only [mapSet, List.map_cons, List.map_nil, List.mem_singleton] at h
    exact Or.inl h
  | cons a t ih =>
    simp only [mapSet] at h
    by_cases hau : a.1 = u
    · rw [if_pos hau] at h
      simp only [List.map_cons, List.mem_cons] at h
      rcases h with h | h
      · exact Or.inl h
      · exact Or.inr (by rw [List.map_cons]; exact List.mem_cons_of_mem _ h)
    · rw [if_neg hau] at h
      simp only [List.map_cons, List.mem_cons] at h
      rcases h with h | h
      · exact Or.inr (by rw [List.map_cons, h]; exact List.mem_cons_self _ _)
      · rcases ih h with h1 | h1
        · exact Or.inl h1
        · exact Or.inr (by rw [List.map_cons]; exact List.mem_cons_of_mem _ h1)

/-- `Map.set` keeps the key list duplicate-free. -/
lemma keys_nodup_mapSet (m : Registry) (u : Nat) (v : List Nat)
    (hnd : (m.map Prod.fst).Nodup) : ((mapSet m u v).map Prod.fst).Nodup := by
  induction m with
  | nil => simp [mapSet]
  | cons a t ih =>
    simp only [List.map_cons, List.nodup_cons] at hnd
    obtain ⟨hnotin, hndt⟩ := hnd
    simp only [mapSet]
    by_cases hau : a.1 = u
    · rw [if_pos hau]
      simp only [List.map_cons, List.nodup_cons]
      exact ⟨by rw [← hau]; exact hnotin, hndt⟩
    · rw [if_neg hau]
      simp only [List.map_cons, List.nodup_cons]
      refine ⟨?_, ih hndt⟩
      intro hmem
      rcases mem_keys_mapSet t u a.1 v hmem with h | h
      · exact hau h
      · exact hnotin h

/-- `Map.delete` returns a sublist of the registry. -/
lemma mapDelete_sublist (m : Registry) (u : Nat) : (mapDelete m u).Sublist m := by
  induction m with
  | nil => simp [mapDelete]
  | cons a t ih =>
    simp only [mapDelete]
    by_cases hau : a.1 = u
    · rw [if_pos hau]; exact List.sublist_cons_self a t
    · rw [if_neg hau]; exact ih.cons₂ a

/-- `Map.delete` keeps the key list duplicate-free. -/
lemma keys_nodup_mapDelete (m : Registry) (u : Nat)
    (hnd : (m.map Prod.fst).Nodup) : ((mapDelete m u).map Prod.fst).Nodup :=
  ((mapDelete_sublist m u).map Prod.fst).nodup hnd

/-- `Map.get` after `Map.delete`, for duplicate-free keys. -/
lemma mapGet_mapDelete (m : Registry) (u w : Nat)
    (hnd : (m.map Prod.fst).Nodup) :
    mapGet (mapDelete m u) w = if w = u then none else mapGet m w := by
  induction m with
  | nil =>
    simp only [mapDelete, mapGet]
    by_cases hw : w = u <;> simp [hw]
  | cons a t ih =>
    simp only [List.map_cons, List.nodup_cons] at hnd
    obtain ⟨hnotin, hndt⟩ := hnd
    simp only [mapDelete]
    by_cases hau : a.1 = u
    · rw [if_pos hau]
      by_cases hw : w = u
      · subst hw
        rw [if_pos rfl]
        refine mapGet_eq_none_of_key_absent t w ?_
        rw [← hau]
        exact hnotin
      · have haw : ¬a.1 = w := by rw [hau]; exact fun hc => hw hc.symm
        simp only [mapGet]
        simp [hw, haw]
    · rw [if_neg hau]
      simp only [mapGet]
      by_cases haw : a.1 = w
      · have hw : ¬w = u := by rw [← haw]; exact hau
        simp [haw, hw]
      · simp [haw, ih hndt]

/-- Effect of a new connection on the per-user connected-socket view. -/
lemma connectedSockets_connect (c : List (Nat × Nat)) (u s w : Nat) :
    connectedSockets (c ++ [(u, s)]) w =
      connectedSockets c w ++ if w = u then [s] else [] := by
  unfold connectedSockets
  rw [List.filter_append, List.map_append]
  congr 1
  by_cases hw : w = u
  · subst hw; simp
  · have h1 : u ≠ w := fun hc => hw hc.symm
    simp [hw, h1]

/-- Effect of a disconnection on the per-user connected-socket view. -/
lemma connectedSockets_disconnect (c : List (Nat × Nat)) (u s w : Nat) :
    connectedSockets (c.filter (fun p => p != (u, s))) w =
      if w = u then setDelete (connectedSockets c w) s
      else connectedSockets c w := by
  by_cases hw : w = u
  · subst hw
    rw [if_pos rfl]
    unfold connectedSockets setDelete
    rw [List.filter_filter, List.filter_map, List.filter_filter]
    refine congrArg (List.map Prod.snd) (List.filter_congr ?_)
    intro p _
    obtain ⟨p1, p2⟩ := p
    by_cases h1 : p1 = w
    · by_cases h2 : p2 = s
      · subst h1; subst h2; simp
      · subst h1
        rw [Bool.eq_iff_iff]
        simp [bne_iff_ne, Prod.ext_iff, h2]
    · have hb : (p1 == w) = false := by simp [h1]
      simp [hb]
  · rw [if_neg hw]
    unfold connectedSockets
    rw [List.filter_filter]
    refine congrArg (List.map Prod.snd) (List.filter_congr ?_)
    intro p _
    obtain ⟨p1, p2⟩ := p
    by_cases h1 : p1 = w
    · subst h1
      have h2 : p1 ≠ u := fun hc => hw (hc ▸ rfl)
      rw [Bool.eq_iff_iff]
      simp [bne_iff_ne, Prod.ext_iff, h2]
    · have hb : (p1 == w) = false := by simp [h1]
      simp [hb]

/-- One admissible event preserves registry correctness and key
uniqueness. -/
lemma registryStep_matches (m : Registry) (c : List (Nat × Nat))
    (e : SockEvent) (hm : RegistryMatches m c)
    (hnd : (m.map Prod.fst).Nodup) (he : okEvent c e = true) :
    RegistryMatches (registryStep m e) (refStep c e) ∧
      ((registryStep m e).map Prod.fst).Nodup := by
  cases e with
  | connect u s =>
    refine ⟨?_, keys_nodup_mapSet m u _ hnd⟩
    intro w
    simp only [registryStep, refStep, onConnect]
    rw [mapGet_mapSet, connectedSockets_connect]
    by_cases hw : w = u
    · subst hw
      rw [if_pos rfl, if_pos rfl, if_neg (by simp)]
      have hmu := hm w
      by_cases hemp : connectedSockets c w = []
      · rw [hemp, if_pos rfl] at hmu
        rw [hmu, hemp]
        simp [setAdd]
      · rw [if_neg hemp] at hmu
        rw [hmu]
        have hs : s ∉ connectedSockets c w := by
          intro hmem
          unfold connectedSockets at hmem
          obtain ⟨p, hp, hps⟩ := List.mem_map.mp hmem
          have hp1 := (List.mem_filter.mp hp).1
          have hall := List.all_eq_true.mp he p hp1
          simp [hps] at hall
        simp [setAdd, hs]
    · rw [if_neg hw, if_neg hw, List.append_nil]
      exact hm w
  | disconnect u s =>
    have hmem : (u, s) ∈ c := by simpa [okEvent] using he
    have hne : connectedSockets c u ≠ [] := by
      intro h0
      have hs : s ∈ connectedSockets c u :=
        List.mem_map.mpr ⟨(u, s), List.mem_filter.mpr ⟨hmem, by simp⟩, rfl⟩
      rw [h0] at hs
      exact absurd hs (List.not_mem_nil s)
    have hmu : mapGet m u = some (connectedSockets c u) := by
      rw [hm u, if_neg hne]
    simp only [registryStep, refStep, onDisconnect, hmu]
    by_cases hdel : setDelete (connectedSockets c u) s = []
    · rw [if_pos hdel]
      refine ⟨?_, keys_nodup_mapDelete m u hnd⟩
      intro w
      rw [mapGet_mapDelete m u w hnd, connectedSockets_disconnect]
      by_cases hw : w = u
      · subst hw
        simp [hdel]
      · simp only [if_neg hw]
        exact hm w
    · rw [if_neg hdel]
      refine ⟨?_, keys_nodup_mapSet m u _ hnd⟩
      intro w
      rw [mapGet_mapSet, connectedSockets_disconnect]
      by_cases hw : w = u
      · subst hw
        rw [if_pos rfl, if_pos rfl, if_neg hdel]
      · rw [if_neg hw, if_neg hw]
        exact hm w

/-- An admissible event sequence preserves registry correctness. -/
lemma runRegistry_matches (evs : List SockEvent) (m : Registry)
    (c : List (Nat × Nat)) (hm : RegistryMatches m c)
    (hnd : (m.map Prod.fst).Nodup) (h : wfEvents c evs = true) :
    RegistryMatches (runRegistry m evs) (refRun c evs) := by
  induction evs generalizing m c with
  | nil => exact hm
  | cons e rest ih =>
    simp only [wfEvents, Bool.and_eq_true] at h
    simp only [runRegistry, refRun, List.foldl_cons]
    obtain ⟨hstep, hstepnd⟩ := registryStep_matches m c e hm hnd h.1
    exact ih (registryStep m e) (refStep c e) hstep hstepnd h.2

/-- C8: after any admissible sequence of connect/disconnect events
starting from the empty registry, `userSocketsMap` maps every user id to
exactly that user's currently connected socket ids, and holds an entry
for a user iff that set is non-empty — multiple simultaneous connections
coexist, a disconnect removes only its own socket, and the entry
disappears exactly when the last connection closes. -/
theorem userSocketsMap_tracks_connections (evs : List SockEvent)
    (h : wfEvents [] evs = true) (u : Nat) :
    mapGet (runRegistry [] evs) u =
      if connectedSockets (refRun [] evs) u = [] then none
      else some (connectedSockets (refRun [] evs) u) :=
  runRegistry_matches evs [] [] (fun _ => rfl) (by simp) h u

/-- C8 (witness): on the concrete admissible sequence — user 1 connects
sockets 10 and 11, user 2 connects socket 20, user 1 disconnects
socket 10 — the registry satisfies the correctness statement, user 1's
entry holds exactly socket 11 and user 2's exactly socket 20. -/
theorem userSocketsMap_tracks_connections_witness :
    (mapGet (runRegistry [] sampleEvents) 1 =
      if connectedSockets (refRun [] sampleEvents) 1 = [] then none
      else some (connectedSockets (refRun [] sampleEvents) 1)) ∧
    mapGet (runRegistry [] sampleEvents) 1 = some [11] ∧
    mapGet (runRegistry [] sampleEvents) 2 = some [20] :=
  ⟨userSocketsMap_tracks_connections sampleEvents (by decide) 1,
   by decide, by decide⟩

/-! ## C9 — query-string array round-trip -/

example : parseQueryParamArray ('a' :: ' ' :: ',' :: ' ' :: 'b' :: []) =
    [['a'], ['b']] := by decide

/-- C9 (counterexample): the list `["a "]` — whose only element is
non-empty after trimming and contains no comma — does not round-trip:
parsing the serialization trims the trailing space away. -/
theorem parse_after_serialize_drops_whitespace :
    (jsTrim ['a', ' '] ≠ [] ∧ ',' ∉ (['a', ' '] : Str)) ∧
    parseQueryParamArray (serializeQueryParamArray [['a', ' ']]) ≠ [['a', ' ']] := by
  decide

/-- C9 (amended): for every list of strings that are non-empty, contain no
comma, and carry no leading or trailing whitespace (i.e. are fixed by
trimming), parsing the comma-joined serialization returns the original
list. -/
theorem parse_after_serialize_id (l : List Str)
    (h : ∀ s ∈ l, s ≠ [] ∧ jsTrim s = s ∧ ',' ∉ s) :
    parseQueryParamArray (serializeQueryParamArray l) = l := by
  rcases l with _ | ⟨a, rest⟩
  · simp [parseQueryParamArray, serializeQueryParamArray, List.intercalate]
  · have hsplit : (serializeQueryParamArray (a :: rest)).splitOn ',' = a :: rest :=
      List.splitOn_intercalate (a :: rest) ',' (fun s hs => (h s hs).2.2)
        (List.cons_ne_nil a rest)
    have hne : serializeQueryParamArray (a :: rest) ≠ [] := by
      intro hnil
      rw [serializeQueryParamArray] at hnil
      rw [serializeQueryParamArray, hnil, List.splitOn_nil] at hsplit
      have : ([] : Str) ∈ a :: rest := by rw [← hsplit]; exact List.mem_singleton_self _
      exact (h [] this).1 rfl
    rw [parseQueryParamArray, if_neg hne, hsplit]
    have hmap : (a :: rest).map jsTrim = (a :: rest).map id :=
      List.map_congr_left (fun s hs => (h s hs).2.1)
    rw [hmap, List.map_id]
    exact List.filter_eq_self.mpr (fun s hs => decide_eq_true ((h s hs).1))

/-- C9 (witness): a concrete trimmed, comma-free list round-trips. -/
theorem parse_after_serialize_id_witness :
    parseQueryParamArray (serializeQueryParamArray [['a'], ['b', 'c']]) =
      [['a'], ['b', 'c']] :=
  parse_after_serialize_id [['a'], ['b', 'c']] (by decide)

/-! ## C1 — status is not settable at creation -/

/-- C1: every successful task creation yields a task whose status is
`To Do`, regardless of any status value supplied in the request (the
request's `status` field is never consulted). -/
theorem createTask_status_toDo (existingUsers : List Nat) (freshId : Nat)
    (now : String) (creatorId : Nat) (inp : CreateTaskInput)
    (task : TaskRow) (rows : List AssignmentRow)
    (h : createTask existingUsers freshId now creatorId inp = .ok (task, rows)) :
    task.status = TaskStatus.toDo := by
  unfold createTask at h
  by_cases h1 : jsTrim inp.title = []
  · rw [if_pos h1] at h
    exact Except.noConfusion h
  · rw [if_neg h1] at h
    by_cases h2 : inp.assignees.all (fun a => existingUsers.contains a)
    · rw [if_pos h2] at h
      simp only [Except.ok.injEq, Prod.mk.injEq] at h
      rw [← h.1]
    · rw [if_neg h2] at h
      exact Except.noConfusion h

/-- C1 (witness): a concrete request that supplies `status := "Done"` is
created with status `To Do`. -/
theorem createTask_status_toDo_witness :
    createTask [1, 2, 3] 106 "t" 1 sampleCreateInput =
      .ok (sampleCreatedTask, sampleCreatedAssignments) ∧
    sampleCreatedTask.status = TaskStatus.toDo :=
  ⟨by rfl, createTask_status_toDo [1, 2, 3] 106 "t" 1 sampleCreateInput
      sampleCreatedTask sampleCreatedAssignments (by rfl)⟩

/-! ## C2 — at most one assignment row per (task, user) -/

/-- Counting assignment rows distributes over append. -/
lemma assignmentCount_append (l1 l2 : List AssignmentRow) (t u : Nat) :
    assignmentCount (l1 ++ l2) t u =
      assignmentCount l1 t u + assignmentCount l2 t u := by
  simp [assignmentCount, List.filter_append]

/-- A (task, user) pair absent from the keys has no rows. -/
lemma assignmentCount_eq_zero (l : List AssignmentRow) (t u : Nat)
    (h : (t, u) ∉ l.map assignmentKey) : assignmentCount l t u = 0 := by
  induction l with
  | nil => rfl
  | cons r tl ih =>
    simp only [List.map_cons, List.mem_cons] at h
    push_neg at h
    obtain ⟨h1, h2⟩ := h
    have hpred : (r.task_id == t && r.user_id == u) = false := by
      by_cases ht : r.task_id = t
      · by_cases hu : r.user_id = u
        · exact absurd (by simp [assignmentKey, ht, hu]) h1
        · simp [hu]
      · simp [ht]
    have := ih h2
    unfold assignmentCount at this ⊢
    simp [List.filter_cons, hpred, this]

/-- A (task, user) pair present among duplicate-free keys has exactly one
row. -/
lemma assignmentCount_eq_one (l : List AssignmentRow) (t u : Nat)
    (hnd : (l.map assignmentKey).Nodup)
    (hmem : (t, u) ∈ l.map assignmentKey) : assignmentCount l t u = 1 := by
  induction l with
  | nil => simp at hmem
  | cons r tl ih =>
    simp only [List.map_cons, List.nodup_cons] at hnd
    obtain ⟨hnotin, hndtl⟩ := hnd
    simp only [List.map_cons, List.mem_cons] at hmem
    rcases hmem with heq | hmem
    · have h1 : r.task_id = t := (congrArg Prod.fst heq).symm
      have h2 : r.user_id = u := (congrArg Prod.snd heq).symm
      have hpred : (r.task_id == t && r.user_id == u) = true := by
        simp [h1, h2]
      have hz : assignmentCount tl t u = 0 := by
        apply assignmentCount_eq_zero
        rw [heq]
        exact hnotin
      unfold assignmentCount at hz ⊢
      simp [List.filter_cons, hpred, hz]
    · have hpred : (r.task_id == t && r.user_id == u) = false := by
        by_cases ht : r.task_id = t
        · by_cases hu : r.user_id = u
          · exfalso
            apply hnotin
            have hk : assignmentKey r = (t, u) := by simp [assignmentKey, ht, hu]
            rw [hk]
            exact hmem
          · simp [hu]
        · simp [ht]
      have := ih hndtl hmem
      unfold assignmentCount at this ⊢
      simp [List.filter_cons, hpred, this]

/-- Every requested member ends up with a row after `updateAssignees`. -/
lemma mem_keys_updateAssignees (rows : List AssignmentRow) (taskId u : Nat)
    (requested : List Nat) (now : String) (hu : u ∈ requested) :
    (taskId, u) ∈ (updateAssignees rows taskId requested now).map assignmentKey := by
  unfold updateAssignees
  rw [List.map_append, List.mem_append]
  by_cases hex : rows.any (fun r => r.task_id == taskId && r.user_id == u) = true
  · left
    obtain ⟨r, hr, hpr⟩ := List.any_eq_true.mp hex
    simp only [Bool.and_eq_true, beq_iff_eq] at hpr
    refine List.mem_map.mpr ⟨r, List.mem_filter.mpr ⟨hr, ?_⟩,
      by simp [assignmentKey, hpr.1, hpr.2]⟩
    simp [hpr.1, hpr.2, List.mem_dedup, hu]
  · right
    rw [List.map_map]
    refine List.mem_map.mpr
      ⟨u, List.mem_filter.mpr ⟨List.mem_dedup.mpr hu, by simp [hex]⟩, rfl⟩

/-- `updateAssignees` keeps the (task, user) keys duplicate-free. -/
lemma keys_nodup_updateAssignees (rows : List AssignmentRow) (taskId : Nat)
    (requested : List Nat) (now : String)
    (hnd : (rows.map assignmentKey).Nodup) :
    ((updateAssignees rows taskId requested now).map assignmentKey).Nodup := by
  unfold updateAssignees
  rw [List.map_append]
  refine List.nodup_append.mpr ⟨?_, ?_, ?_⟩
  · exact ((List.filter_sublist rows).map assignmentKey).nodup hnd
  · rw [List.map_map]
    refine List.Nodup.map ?_ ((List.filter_sublist _).nodup (List.nodup_dedup requested))
    intro a b hab
    simpa using congrArg Prod.snd hab
  · intro k hk1 hk2
    obtain ⟨r, hr, hkey⟩ := List.mem_map.mp hk1
    have hrrows : r ∈ rows := (List.mem_filter.mp hr).1
    rw [List.map_map] at hk2
    obtain ⟨u, hufil, hku⟩ := List.mem_map.mp hk2
    have hqu := (List.mem_filter.mp hufil).2
    rw [← hku] at hkey
    have hany : rows.any (fun r => r.task_id == taskId && r.user_id == u) = true := by
      refine List.any_eq_true.mpr ⟨r, hrrows, ?_⟩
      have h1 : r.task_id = taskId := congrArg Prod.fst hkey
      have h2 : r.user_id = u := congrArg Prod.snd hkey
      simp [h1, h2]
    simp [hany] at hqu

/-- C2: starting from a table with duplicate-free (task, user) keys,
`updateAssignees` preserves the uniqueness invariant; an update whose set
contains `u` leaves exactly one row for `(taskId, u)`; and two sequential
updates that each add `u` still leave exactly one row and no error (the
operation is total). -/
theorem assignment_rows_unique (rows : List AssignmentRow) (taskId : Nat)
    (s1 s2 : List Nat) (u : Nat) (now1 now2 : String)
    (hnd : (rows.map assignmentKey).Nodup) :
    ((updateAssignees rows taskId s1 now1).map assignmentKey).Nodup ∧
    (u ∈ s1 →
      assignmentCount (updateAssignees rows taskId s1 now1) taskId u = 1) ∧
    (u ∈ s1 → u ∈ s2 →
      assignmentCount
        (updateAssignees (updateAssignees rows taskId s1 now1) taskId s2 now2)
        taskId u = 1) := by
  have h1 := keys_nodup_updateAssignees rows taskId s1 now1 hnd
  refine ⟨h1, ?_, ?_⟩
  · intro hu
    exact assignmentCount_eq_one _ taskId u h1
      (mem_keys_updateAssignees rows taskId u s1 now1 hu)
  · intro _ hu2
    have h2 := keys_nodup_updateAssignees
      (updateAssignees rows taskId s1 now1) taskId s2 now2 h1
    exact assignmentCount_eq_one _ taskId u h2
      (mem_keys_updateAssignees _ taskId u s2 now2 hu2)

/-- C2 (witness): adding user 2 to task 101 in two sequential updates
leaves exactly one assignment row for (101, 2). -/
theorem assignment_rows_unique_witness :
    assignmentCount
      (updateAssignees (updateAssignees [] 101 [2] "t1") 101 [2, 3] "t2")
      101 2 = 1 :=
  (assignment_rows_unique [] 101 [2] [2, 3] 2 "t1" "t2" (by simp)).2.2
    (by decide) (by decide)

/-! ## C3 — task deletion cascade and notification retention -/

/-- `nullifyParent` changes at most the `parent_comment_id` field. -/
lemma nullifyParent_fields (ds : List CommentRow) (c : CommentRow) :
    (nullifyParent ds c).comment_id = c.comment_id ∧
    (nullifyParent ds c).task_id = c.task_id ∧
    (nullifyParent ds c).author_user_id = c.author_user_id ∧
    (nullifyParent ds c).body = c.body ∧
    (nullifyParent ds c).created_at = c.created_at ∧
    (nullifyParent ds c).updated_at = c.updated_at := by
  obtain ⟨cid, tid, aid, b, ca, ua, pc⟩ := c
  unfold nullifyParent
  rcases pc with _ | p
  · exact ⟨rfl, rfl, rfl, rfl, rfl, rfl⟩
  · dsimp only
    split
    · exact ⟨rfl, rfl, rfl, rfl, rfl, rfl⟩
    · exact ⟨rfl, rfl, rfl, rfl, rfl, rfl⟩

/-- C3: deleting a task removes every assignment, comment and reminder
row belonging to it, while the notifications table is left completely
unchanged — in particular every notification whose `reference_id` points
at the deleted task is still present. -/
theorem deleteTask_cascades (db : DBState) (id : Nat) :
    (∀ a ∈ (deleteTask db id).task_assignees, a.task_id ≠ id) ∧
    (∀ c ∈ (deleteTask db id).task_comments, c.task_id ≠ id) ∧
    (∀ r ∈ (deleteTask db id).task_reminders, r.task_id ≠ id) ∧
    (deleteTask db id).notifications = db.notifications ∧
    (∀ n ∈ db.notifications, n.reference_id = some id →
        n ∈ (deleteTask db id).notifications) := by
  refine ⟨?_, ?_, ?_, rfl, ?_⟩
  · intro a ha
    have h := (List.mem_filter.mp ha).2
    simpa using h
  · intro c hc
    simp only [deleteTask] at hc
    obtain ⟨c0, hc0, rfl⟩ := List.mem_map.mp hc
    have h0 := (List.mem_filter.mp hc0).2
    rw [(nullifyParent_fields _ c0).2.1]
    simpa using h0
  · intro r hr
    have h := (List.mem_filter.mp hr).2
    simpa using h
  · intro n hn _
    exact hn

/-- C3 (witness): deleting task 101 from the sample store empties its
assignment, comment and reminder rows and keeps the notification that
references it. -/
theorem deleteTask_cascades_witness :
    (deleteTask sampleDB 101).notifications = sampleDB.notifications ∧
    notification301 ∈ (deleteTask sampleDB 101).notifications ∧
    (deleteTask sampleDB 101).task_assignees = [] ∧
    (deleteTask sampleDB 101).task_reminders = [] := by
  refine ⟨(deleteTask_cascades sampleDB 101).2.2.2.1,
    (deleteTask_cascades sampleDB 101).2.2.2.2 notification301 (by decide) (by decide),
    ?_, ?_⟩
  · decide
  · decide

/-! ## C4 — comment deletion orphans replies -/

/-- C4: deleting a comment removes exactly that comment; no surviving
comment still references it; and every other comment survives with all
fields unchanged except that a parent reference to the deleted comment is
set to null. -/
theorem deleteComment_orphans_children (comments : List CommentRow) (cid : Nat) :
    (∀ c ∈ deleteComment comments cid, c.comment_id ≠ cid) ∧
    (∀ c ∈ deleteComment comments cid, c.parent_comment_id ≠ some cid) ∧
    (∀ c ∈ comments, c.comment_id ≠ cid →
      ∃ c' ∈ deleteComment comments cid,
        c'.comment_id = c.comment_id ∧ c'.task_id = c.task_id ∧
        c'.author_user_id = c.author_user_id ∧ c'.body = c.body ∧
        c'.created_at = c.created_at ∧ c'.updated_at = c.updated_at ∧
        (c.parent_comment_id = some cid → c'.parent_comment_id = none) ∧
        (c.parent_comment_id ≠ some cid →
          c'.parent_comment_id = c.parent_comment_id)) := by
  refine ⟨?_, ?_, ?_⟩
  · intro c hc
    obtain ⟨c0, hc0, rfl⟩ := List.mem_map.mp hc
    have h0 := (List.mem_filter.mp hc0).2
    by_cases h : c0.parent_comment_id == some cid
    · simpa [deleteComment, h] using h0
    · simpa [deleteComment, h] using h0
  · intro c hc
    obtain ⟨c0, _, rfl⟩ := List.mem_map.mp hc
    by_cases h : c0.parent_comment_id = some cid
    · simp [h]
    · simp [h]
  · intro c hc hne
    refine ⟨(fun c =>
        if c.parent_comment_id == some cid then
          { c with parent_comment_id := none }
        else c) c, List.mem_map_of_mem _ (List.mem_filter.mpr ⟨hc, by simpa using hne⟩),
      ?_⟩
    by_cases h : c.parent_comment_id = some cid
    · simp [h]
    · simp [h]

/-- C4 (witness): deleting comment 201 from the sample comments keeps its
reply 202 with every field intact except the parent reference, which
becomes null. -/
theorem deleteComment_orphans_children_witness :
    ∃ c' ∈ deleteComment sampleDB.task_comments 201,
      c'.comment_id = comment202.comment_id ∧ c'.task_id = comment202.task_id ∧
      c'.author_user_id = comment202.author_user_id ∧ c'.body = comment202.body ∧
      c'.created_at = comment202.created_at ∧
      c'.updated_at = comment202.updated_at ∧
      (comment202.parent_comment_id = some 201 → c'.parent_comment_id = none) ∧
      (comment202.parent_comment_id ≠ some 201 →
        c'.parent_comment_id = comment202.parent_comment_id) :=
  (deleteComment_orphans_children sampleDB.task_comments 201).2.2 comment202
    (by decide) (by decide)

/-! ## C5 — mark_as_read semantics -/

/-- C5: `mark_as_read` sets `is_read` to true on every notification with
the given id; it is idempotent; it changes no field other than `is_read`
of any notification (and touches no other notification); and when every
matching notification is already read it leaves the notification list
unchanged (a no-op rather than an error — the action is total). -/
theorem mark_as_read_spec (s : NotificationsState) (nid : Nat) :
    (∀ n ∈ (mark_as_read s nid).notifications,
        n.notification_id = nid → n.is_read = true) ∧
    mark_as_read (mark_as_read s nid) nid = mark_as_read s nid ∧
    (mark_as_read s nid).notifications =
      s.notifications.map
        (fun n => { n with is_read := n.is_read || decide (n.notification_id = nid) }) ∧
    ((∀ n ∈ s.notifications, n.notification_id = nid → n.is_read = true) →
      (mark_as_read s nid).notifications = s.notifications) := by
  have hframe : (mark_as_read s nid).notifications =
      s.notifications.map
        (fun n => { n with is_read := n.is_read || decide (n.notification_id = nid) }) := by
    simp only [mark_as_read]
    apply List.map_congr_left
    intro n _
    by_cases h : n.notification_id = nid
    · simp [h]
    · simp [h]
  refine ⟨?_, ?_, hframe, ?_⟩
  · intro n hn hid
    rw [hframe] at hn
    obtain ⟨m, _, rfl⟩ := List.mem_map.mp hn
    simp only at hid
    simp [hid]
  · have hf : ∀ n : Notification,
        (fun n => if n.notification_id = nid then { n with is_read := true } else n)
          ((fun n => if n.notification_id = nid then { n with is_read := true } else n) n) =
        (fun n => if n.notification_id = nid then { n with is_read := true } else n) n := by
      intro n
      by_cases h : n.notification_id = nid
      · simp [h]
      · simp [h]
    have hcomp :
        (s.notifications.map
            (fun n => if n.notification_id = nid then { n with is_read := true } else n)).map
            (fun n => if n.notification_id = nid then { n with is_read := true } else n) =
        s.notifications.map
            (fun n => if n.notification_id = nid then { n with is_read := true } else n) := by
      rw [List.map_map]
      exact List.map_congr_left (fun n _ => hf n)
    simp only [mark_as_read]
    rw [hcomp]
  · intro hall
    rw [hframe]
    have : s.notifications.map
        (fun n => { n with is_read := n.is_read || decide (n.notification_id = nid) }) =
        s.notifications.map id := by
      apply List.map_congr_left
      intro n hn
      by_cases h : n.notification_id = nid
      · have hr : n.is_read = true := hall n hn h
        cases n
        simp_all
      · simp [h]
    rw [this, List.map_id]

/-- C5 (witness): on a concrete state holding one already-read
notification, marking it read again is idempotent and leaves the
notification list unchanged. -/
theorem mark_as_read_spec_witness :
    mark_as_read (mark_as_read ⟨[readNotification], 0⟩ 1) 1 =
      mark_as_read ⟨[readNotification], 0⟩ 1 ∧
    (mark_as_read ⟨[readNotification], 0⟩ 1).notifications = [readNotification] := by
  have h := mark_as_read_spec ⟨[readNotification], 0⟩ 1
  exact ⟨h.2.1, h.2.2.2 (by decide)⟩

/-! ## C10 — unread counter invariant and id-uniqueness of the store -/

/-- C10: each of the four store actions leaves `unread_count` equal to the
number of unread notifications (`add_notification` updates the counter
incrementally, so it needs the invariant to hold beforehand; the other
three recompute it unconditionally), and `add_notification` preserves
uniqueness of `notification_id`s — it never inserts a second notification
with an already-present id. -/
theorem notifications_store_invariant (s : NotificationsState)
    (ns : List Notification) (n : Notification) (id : Nat) :
    unreadInv (set_notifications s ns) ∧
    (unreadInv s → unreadInv (add_notification s n)) ∧
    unreadInv (mark_as_read s id) ∧
    unreadInv (mark_all_as_read s) ∧
    ((s.notifications.map Notification.notification_id).Nodup →
      ((add_notification s n).notifications.map Notification.notification_id).Nodup) := by
  refine ⟨?_, ?_, ?_, ?_, ?_⟩
  · simp [unreadInv, set_notifications]
  · intro hinv
    unfold unreadInv at hinv
    unfold add_notification
    rcases hfind : s.notifications.find?
        (fun m => m.notification_id == n.notification_id) with _ | m
    · simp only [hfind]
      cases hr : n.is_read <;>
        simp [unreadInv, List.filter_cons, hr, hinv]
    · simpa [hfind] using hinv
  · simp [unreadInv, mark_as_read]
  · simp only [unreadInv, mark_all_as_read]
    induction s.notifications with
    | nil => rfl
    | cons a t ih => simpa using ih
  · intro hnd
    unfold add_notification
    rcases hfind : s.notifications.find?
        (fun m => m.notification_id == n.notification_id) with _ | m
    · simp only [hfind, List.map_cons, List.nodup_cons]
      refine ⟨?_, hnd⟩
      intro hmem
      obtain ⟨m, hm, hid⟩ := List.mem_map.mp hmem
      have := List.find?_eq_none.mp hfind m hm
      simp [hid] at this
    · simpa [hfind] using hnd

/-- C10 (witness): starting from the empty store (whose counter is
correct and whose id list is duplicate-free), adding a concrete unread
notification keeps the counter correct and the ids duplicate-free. -/
theorem notifications_store_invariant_witness :
    unreadInv (add_notification ⟨[], 0⟩ unreadNotification) ∧
    ((add_notification ⟨[], 0⟩ unreadNotification).notifications.map
        Notification.notification_id).Nodup := by
  have h := notifications_store_invariant ⟨[], 0⟩ [] unreadNotification 0
  exact ⟨h.2.1 (by rfl), h.2.2.2.2 (by simp)⟩

end TaskMaster
